import Mathlib

/-!
# Bell-schedule period resolver (`js/app.js`, `js/schedules.js`)

A shallow embedding of `getCurrentPeriod` and of the `SCHEDULES` table.

* Strings are Lean strings. The four properties of a period record are present, as in every
  record of the source; `name`, `start` and `end` are strings, the empty string being falsy.
* A `Date` is its time value: `some t` with `t` the local time in milliseconds since the
  local epoch, `none` for an invalid date (time value `NaN`). Local time runs at a constant
  offset from UTC, so dates compare as their local time values do.
* `new Date()` reads the wall clock. The reads of one call are numbered in program order and
  the clock is the function `clock : Nat → Nat` giving the instant (local milliseconds) that
  the `k`-th read returns.
-/

namespace ShSched

/-! ## Data model (`js/schedules.js`) -/

/-- One record of a `periods` array: `name`, `start`, `end`, `minutes`. -/
structure Period where
  name : String
  start : String
  end_ : String
  minutes : Nat
  deriving DecidableEq

/-- One schedule object: `name` and `periods` (`none` when the property is absent). -/
structure Schedule where
  name : String
  periods : Option (List Period)
  deriving DecidableEq

/-- The `SCHEDULES` object: its `southampton_high_school` property, as the list of the own
keys with their schedule objects. -/
structure Catalog where
  southampton_high_school : List (String × Schedule)

def regular_schedule : Schedule :=
  { name := "SHS Bell Schedule (2024-2025)"
    periods := some
      [ ⟨"Warning Bell", "07:20", "07:25", 5⟩,
        ⟨"1", "07:25", "08:09", 40⟩,
        ⟨"2", "08:13", "08:53", 40⟩,
        ⟨"3", "08:57", "09:37", 40⟩,
        ⟨"4", "09:41", "10:21", 40⟩,
        ⟨"5", "10:25", "11:05", 40⟩,
        ⟨"6", "11:09", "11:49", 40⟩,
        ⟨"7", "11:53", "12:33", 40⟩,
        ⟨"8", "12:37", "13:17", 40⟩,
        ⟨"9", "13:21", "14:01", 40⟩,
        ⟨"Extra Help", "14:05", "14:30", 25⟩ ] }

def two_hour_delay : Schedule :=
  { name := "2 Hour Delay Schedule"
    periods := some
      [ ⟨"Warning", "09:20", "09:25", 5⟩,
        ⟨"1", "09:25", "09:55", 26⟩,
        ⟨"2", "09:59", "10:25", 26⟩,
        ⟨"3", "10:29", "10:55", 26⟩,
        ⟨"4", "10:59", "11:26", 27⟩,
        ⟨"5", "11:30", "11:57", 27⟩,
        ⟨"6", "12:01", "12:28", 27⟩,
        ⟨"7", "12:32", "12:59", 27⟩,
        ⟨"8", "13:03", "13:30", 27⟩,
        ⟨"9", "13:34", "14:01", 27⟩,
        ⟨"Extra Help", "14:05", "14:30", 25⟩ ] }

def homeroom_schedule : Schedule :=
  { name := "15 Minute Homeroom"
    periods := some
      [ ⟨"Warning", "07:20", "07:25", 5⟩,
        ⟨"Homeroom", "07:25", "07:40", 15⟩,
        ⟨"1", "07:44", "08:26", 38⟩,
        ⟨"2", "08:30", "09:08", 38⟩,
        ⟨"3", "09:12", "09:50", 38⟩,
        ⟨"4", "09:54", "10:32", 38⟩,
        ⟨"5", "10:36", "11:14", 38⟩,
        ⟨"6", "11:18", "11:56", 38⟩,
        ⟨"7", "12:00", "12:38", 38⟩,
        ⟨"8", "12:42", "13:20", 38⟩,
        ⟨"9", "13:24", "14:01", 37⟩,
        ⟨"Extra Help", "14:05", "14:30", 25⟩ ] }

/-- The constant `SCHEDULES` of `js/schedules.js`. -/
def SCHEDULES : Catalog :=
  { southampton_high_school :=
      [ ("regular_schedule", regular_schedule),
        ("two_hour_delay", two_hour_delay),
        ("homeroom_schedule", homeroom_schedule) ] }

/-! ## JavaScript primitives used by `getCurrentPeriod` -/

/-- `s.split(sep)` for a one-character separator, on the characters of `s`. -/
def splitChars (sep : Char) : List Char → List (List Char)
  | [] => [[]]
  | c :: cs =>
    if c = sep then [] :: splitChars sep cs
    else
      match splitChars sep cs with
      | [] => [[c]]
      | w :: ws => (c :: w) :: ws

/-- `Number(s)` on the characters of a string, in the fragment of the unsigned decimal
integers, which holds every well-formed time of day: the empty string is `0` and a string
of decimal digits is its value. A string outside the fragment (a sign, blanks, a fraction,
an exponent, a radix) is given `none`, the `NaN` of a string that is no numeric literal. -/
def Number (s : List Char) : Option Nat :=
  if s.all Char.isDigit then some (s.foldl (fun n c => 10 * n + (c.toNat - 48)) 0) else none

/-- `const [hours, minutes] = s.split(':').map(Number)`: the first two entries of the array;
`none` is `NaN`, also for the `undefined` that a missing second entry leaves, which is what
`setHours` makes of it. -/
def parseTime (s : String) : Option Nat × Option Nat :=
  match (splitChars ':' s.data).map Number with
  | h :: m :: _ => (h, m)
  | [h] => (h, none)
  | [] => (none, none)

def msPerDay : Nat := 86400000

/-- `d.setHours(hours, minutes, seconds)` on a date of time value `t`: the day and the
milliseconds of `t` are kept (no fourth argument is passed), the hours, minutes and seconds
are replaced; a `NaN` argument makes the date invalid. Hours past 23 or minutes past 59
carry into the following hours and days, as in the source. -/
def setHours (t : Nat) (hours minutes : Option Nat) (seconds : Nat) : Option Nat :=
  match hours, minutes with
  | some h, some m =>
    some (t / msPerDay * msPerDay + (h * 3600000 + m * 60000 + seconds * 1000 + t % 1000))
  | _, _ => none

/-- The idiom of the source: a date read from the clock at `t`, then
`const [h, m] = s.split(':').map(Number); d.setHours(h, m, 0)`. -/
def dateAt (t : Nat) (s : String) : Option Nat :=
  setHours t (parseTime s).1 (parseTime s).2 0

/-- `a < b` on two dates: false when either is invalid. -/
def dateLt (a b : Option Nat) : Bool :=
  match a, b with
  | some x, some y => decide (x < y)
  | _, _ => false

/-- `a <= b` on two dates: false when either is invalid. -/
def dateLe (a b : Option Nat) : Bool :=
  match a, b with
  | some x, some y => decide (x ≤ y)
  | _, _ => false

/-- `name.match(/^\d+$/)`: a non-empty string of ASCII decimal digits. -/
def isNumeric (name : String) : Bool :=
  !name.data.isEmpty && name.data.all Char.isDigit

/-- The display name of both branches of the loop:
`period.name.match(/^\d+$/) ? "Period " + period.name : period.name`. -/
def displayName (p : Period) : String :=
  if isNumeric p.name then "Period " ++ p.name else p.name

/-- Truthiness of a string property: the empty string (or an absent property) is falsy. -/
def truthy (s : String) : Bool := s.data != []

/-! ## `getCurrentPeriod` (`js/app.js`, lines 37 to 106) -/

/-- The loop of lines 72 to 103 and the final `return` of line 105, on the periods that
remain; `k` is the number of clock reads made so far. -/
def scanPeriods (clock : Nat → Nat) (timeObj : Option Nat) : Nat → List Period → String
  | _, [] => "Not in session"
  | k, period :: rest =>
    if !truthy period.start || !truthy period.end_ then scanPeriods clock timeObj k rest
    else
      let startTime := dateAt (clock k) period.start
      let endTime := dateAt (clock (k + 1)) period.end_
      if dateLe startTime timeObj && dateLe timeObj endTime then displayName period
      else
        match rest with
        | [] => "Not in session"
        | nextPeriod :: _ =>
          let nextStart := dateAt (clock (k + 2)) nextPeriod.start
          if dateLt endTime timeObj && dateLt timeObj nextStart then
            displayName period ++ " → " ++ displayName nextPeriod
          else scanPeriods clock timeObj (k + 3) rest

/-- Lines 55 to 105: the after-school check, the Period 1 check, then the loop. -/
def afterSchoolOnward (clock : Nat → Nat) (periods : List Period) (timeObj : Option Nat)
    (k : Nat) : String :=
  let afterSchool := setHours (clock k) (some 14) (some 30) 0
  if dateLt afterSchool timeObj then "After School"
  else
    match periods.find? (fun p => p.name == "1") with
    | some period1 =>
      let period1Start := dateAt (clock (k + 1)) period1.start
      if dateLt timeObj period1Start then "Period 1 starts at " ++ period1.start
      else scanPeriods clock timeObj (k + 2) periods
    | none => scanPeriods clock timeObj (k + 1) periods

/-- Lines 41 to 105: the body of `getCurrentPeriod` once the periods are found. -/
def resolvePeriods (clock : Nat → Nat) (periods : List Period) (currentTime : String) :
    String :=
  let timeObj := dateAt (clock 0) currentTime
  match periods.find? (fun p => truthy p.start) with
  | some firstPeriod =>
    let firstStart := dateAt (clock 1) firstPeriod.start
    if dateLt timeObj firstStart then "Before School"
    else afterSchoolOnward clock periods timeObj 2
  | none => afterSchoolOnward clock periods timeObj 1

/-- The function `getCurrentPeriod(scheduleType, currentTime)`. The global `SCHEDULES` it
reads is the argument `catalog`, and `clock` gives the instants of its `new Date()` reads.
A key that is not an own key of the catalog gives `undefined` or an inherited object
without `periods`: both take the first `return`. -/
def getCurrentPeriod (catalog : Catalog) (clock : Nat → Nat)
    (scheduleType currentTime : String) : String :=
  match catalog.southampton_high_school.lookup scheduleType with
  | none => "No schedule defined"
  | some schedule =>
    match schedule.periods with
    | none => "No schedule defined"
    | some periods => resolvePeriods clock periods currentTime

/-! ## Vocabulary of the statements -/

/-- A well-formed `HH:MM` time of day: two digits, a colon, two digits, hours at most 23 and
minutes at most 59. -/
def isHHMM (s : String) : Bool :=
  match s.data with
  | [a, b, sep, c, d] =>
    a.isDigit && b.isDigit && sep == ':' && c.isDigit && d.isDigit &&
      decide (10 * (a.toNat - 48) + (b.toNat - 48) ≤ 23) &&
      decide (10 * (c.toNat - 48) + (d.toNat - 48) ≤ 59)
  | _ => false

/-- Minutes since midnight of a time string, through the parse of the source
(`hours * 60 + minutes`); `0` when a component is not a number. -/
def minuteOfDay (s : String) : Nat :=
  match parseTime s with
  | (some h, some m) => h * 60 + m
  | _ => 0

/-- The clock of a call all of whose `new Date()` reads return the same instant. -/
def frozen (now : Nat) : Nat → Nat := fun _ => now

/-- The query lies within the interval, both ends included. -/
def within (q : String) (p : Period) : Bool :=
  decide (minuteOfDay p.start ≤ minuteOfDay q) && decide (minuteOfDay q ≤ minuteOfDay p.end_)

/-- Every interval of the list has well-formed `start` and `end`. -/
def WellFormed (ps : List Period) : Prop :=
  ∀ p ∈ ps, isHHMM p.start = true ∧ isHHMM p.end_ = true

/-- The intervals are sorted by start. -/
def SortedByStart (ps : List Period) : Prop :=
  ps.Pairwise (fun a b => minuteOfDay a.start ≤ minuteOfDay b.start)

/-- No two intervals overlap: the earlier one ends no later than the later one starts. -/
def NonOverlapping (ps : List Period) : Prop :=
  ps.Pairwise (fun a b => minuteOfDay a.end_ ≤ minuteOfDay b.start)

/-- The transition strings of the consecutive pairs of a list of periods. -/
def transitions : List Period → List String
  | p :: n :: rest => (displayName p ++ " → " ++ displayName n) :: transitions (n :: rest)
  | _ => []

/-- Every string the loop and the final `return` can produce on a list of periods. -/
def scanOutputs (ps : List Period) : List String :=
  "Not in session" :: (ps.map displayName ++ transitions ps)

/-- Every string the body of `getCurrentPeriod` can produce on a list of periods. -/
def resolveOutputs (ps : List Period) : List String :=
  "Before School" :: "After School" ::
    ((ps.find? (fun p => p.name == "1")).toList.map (fun p => "Period 1 starts at " ++ p.start)
      ++ scanOutputs ps)

/-- A catalog with one schedule that starts after the 14:30 boundary. -/
def eveningCatalog : Catalog :=
  { southampton_high_school :=
      [ ("evening", { name := "Evening", periods := some [⟨"Study Hall", "15:00", "16:00", 60⟩] }) ] }

/-- A schedule that ends before the 14:30 boundary. -/
def morningSchedule : Schedule :=
  { name := "Morning", periods := some [⟨"1", "08:00", "12:00", 240⟩] }

/-- A catalog with the morning schedule alone. -/
def morningCatalog : Catalog :=
  { southampton_high_school := [("morning", morningSchedule)] }

/-- A schedule with a gap that holds the 14:30 boundary. -/
def afternoonSchedule : Schedule :=
  { name := "Afternoon"
    periods := some [⟨"A", "13:00", "14:00", 60⟩, ⟨"B", "15:00", "16:00", 60⟩] }

/-- A catalog with the afternoon schedule alone. -/
def afternoonCatalog : Catalog :=
  { southampton_high_school := [("afternoon", afternoonSchedule)] }

/-- A clock that reads millisecond 0 up to the read numbered `n` and has ticked by one
millisecond at every later read. -/
def tickAfterRead (n : Nat) : Nat → Nat := fun k => if k ≤ n then 0 else 1

/-- A clock whose first read falls on the last millisecond of a second and whose later reads
fall on the first millisecond of the next second. -/
def wrapAfterFirst : Nat → Nat := fun k => if k = 0 then 999 else 1000

/-- A clock whose first read falls on the last millisecond of a day and whose later reads
fall on the first millisecond of the next day. -/
def midnightAfterFirst : Nat → Nat := fun k => if k = 0 then msPerDay - 1 else msPerDay

/-- A clock that ticks by one millisecond after the first read of a call. -/
def tickAfterFirst (now : Nat) : Nat → Nat := fun k => if k = 0 then now else now + 1

/-! ## Parsing and comparing times -/

theorem isDigit_ne_colon (c : Char) (h : c.isDigit = true) : c ≠ ':' := by
  rintro rfl
  exact absurd h (by decide)

theorem parseTime_of_isHHMM (s : String) (h : isHHMM s = true) :
    ∃ hh mm, parseTime s = (some hh, some mm) ∧ hh ≤ 23 ∧ mm ≤ 59 := by
  unfold isHHMM at h
  split at h
  · rename_i a b sep c d hs
    simp only [Bool.and_eq_true, beq_iff_eq, decide_eq_true_eq] at h
    obtain ⟨⟨⟨⟨⟨⟨ha, hb⟩, hsep⟩, hc⟩, hd⟩, hh⟩, hm⟩ := h
    subst hsep
    refine ⟨10 * (a.toNat - 48) + (b.toNat - 48), 10 * (c.toNat - 48) + (d.toNat - 48), ?_, hh, hm⟩
    have na := isDigit_ne_colon a ha
    have nb := isDigit_ne_colon b hb
    have nc := isDigit_ne_colon c hc
    have nd := isDigit_ne_colon d hd
    have hsplit : splitChars ':' [a, b, ':', c, d] = [[a, b], [c, d]] := by
      simp only [splitChars, if_neg na, if_neg nb, if_neg nc, if_neg nd, if_true]
    have hn : ∀ x y : Char, x.isDigit = true → y.isDigit = true →
        Number [x, y] = some (10 * (x.toNat - 48) + (y.toNat - 48)) := by
      intro x y hx hy
      simp only [Number, List.all_cons, List.all_nil, hx, hy, Bool.and_self, if_true,
        List.foldl_cons, List.foldl_nil]
      simp
    simp only [parseTime, hs, hsplit, List.map_cons, List.map_nil, hn a b ha hb, hn c d hc hd]
  · exact absurd h (by simp)

theorem minuteOfDay_lt (s : String) (h : isHHMM s = true) : minuteOfDay s < 1440 := by
  obtain ⟨hh, mm, hp, h1, h2⟩ := parseTime_of_isHHMM s h
  simp only [minuteOfDay, hp]
  omega

theorem dateAt_of_isHHMM (t : Nat) (s : String) (h : isHHMM s = true) :
    dateAt t s = some (t / msPerDay * msPerDay + (minuteOfDay s * 60000 + t % 1000)) := by
  obtain ⟨hh, mm, hp, _, _⟩ := parseTime_of_isHHMM s h
  simp only [dateAt, minuteOfDay, hp, setHours]
  rw [show hh * 3600000 + mm * 60000 + 0 * 1000 + t % 1000 = (hh * 60 + mm) * 60000 + t % 1000
    from by omega]

theorem truthy_of_isHHMM (s : String) (h : isHHMM s = true) : truthy s = true := by
  unfold isHHMM at h
  split at h
  · rename_i hs
    simp [truthy, hs]
  · exact absurd h (by simp)

theorem dateLt_frozen (now : Nat) (a b : String) (ha : isHHMM a = true)
    (hb : isHHMM b = true) :
    dateLt (dateAt now a) (dateAt now b) = decide (minuteOfDay a < minuteOfDay b) := by
  rw [dateAt_of_isHHMM now a ha, dateAt_of_isHHMM now b hb]
  simp only [dateLt]
  congr 1
  apply propext
  constructor <;> intro h <;> omega

theorem dateLe_frozen (now : Nat) (a b : String) (ha : isHHMM a = true)
    (hb : isHHMM b = true) :
    dateLe (dateAt now a) (dateAt now b) = decide (minuteOfDay a ≤ minuteOfDay b) := by
  rw [dateAt_of_isHHMM now a ha, dateAt_of_isHHMM now b hb]
  simp only [dateLe]
  congr 1
  apply propext
  constructor <;> intro h <;> omega

/-- A query a whole minute earlier compares as earlier whatever the milliseconds of the two
reads, as long as the second read is not on an earlier day. -/
theorem dateLt_of_le (t0 t1 : Nat) (a b : String) (ha : isHHMM a = true)
    (hb : isHHMM b = true) (ht : t0 ≤ t1) (hlt : minuteOfDay a < minuteOfDay b) :
    dateLt (dateAt t0 a) (dateAt t1 b) = true := by
  rw [dateAt_of_isHHMM t0 a ha, dateAt_of_isHHMM t1 b hb]
  simp only [dateLt, decide_eq_true_eq]
  have hd : t0 / msPerDay * msPerDay ≤ t1 / msPerDay * msPerDay :=
    Nat.mul_le_mul_right _ (Nat.div_le_div_right ht)
  have h0 : t0 % 1000 < 1000 := Nat.mod_lt _ (by decide)
  omega

theorem afterSchool_frozen (now : Nat) (q : String) (hq : isHHMM q = true) :
    dateLt (setHours now (some 14) (some 30) 0) (dateAt now q)
      = decide (870 < minuteOfDay q) := by
  rw [dateAt_of_isHHMM now q hq]
  simp only [setHours, dateLt]
  congr 1
  apply propext
  constructor <;> intro h <;> omega

/-- With a frozen clock the number of reads already made does not matter. -/
theorem scanPeriods_frozen_index (now : Nat) (t : Option Nat) (ps : List Period) :
    ∀ k j : Nat, scanPeriods (frozen now) t k ps = scanPeriods (frozen now) t j ps := by
  induction ps with
  | nil => intro k j; rfl
  | cons p rest ih =>
    intro k j
    simp only [scanPeriods, frozen]
    rw [ih k j, ih (k + 3) (j + 3)]

/-- The last turn of the loop at a frozen clock, in minutes of the day. -/
theorem scanPeriods_frozen_single (now k : Nat) (q : String) (hq : isHHMM q = true)
    (p : Period) (hps : isHHMM p.start = true) (hpe : isHHMM p.end_ = true) :
    scanPeriods (frozen now) (dateAt now q) k [p] =
      if within q p = true then displayName p else "Not in session" := by
  simp only [scanPeriods, frozen, truthy_of_isHHMM _ hps, truthy_of_isHHMM _ hpe,
    dateLe_frozen now _ _ hps hq, dateLe_frozen now _ _ hq hpe, within]
  simp only [Bool.not_true, Bool.or_self, Bool.false_eq_true, if_false]

/-- One turn of the loop when a next period exists. -/
theorem scanPeriods_cons_cons (clock : Nat → Nat) (t : Option Nat) (k : Nat)
    (p n : Period) (rest : List Period) :
    scanPeriods clock t k (p :: n :: rest) =
      if (!truthy p.start || !truthy p.end_) = true then scanPeriods clock t k (n :: rest)
      else
        if (dateLe (dateAt (clock k) p.start) t && dateLe t (dateAt (clock (k + 1)) p.end_))
            = true then displayName p
        else
          if (dateLt (dateAt (clock (k + 1)) p.end_) t
              && dateLt t (dateAt (clock (k + 2)) n.start)) = true then
            displayName p ++ " → " ++ displayName n
          else scanPeriods clock t (k + 3) (n :: rest) := by
  rw [scanPeriods]

/-- One turn of the loop at a frozen clock, in minutes of the day. -/
theorem scanPeriods_frozen_cons (now k : Nat) (q : String) (hq : isHHMM q = true)
    (p n : Period) (rest : List Period) (hps : isHHMM p.start = true)
    (hpe : isHHMM p.end_ = true) (hn : isHHMM n.start = true) :
    scanPeriods (frozen now) (dateAt now q) k (p :: n :: rest) =
      if within q p = true then displayName p
      else if minuteOfDay p.end_ < minuteOfDay q ∧ minuteOfDay q < minuteOfDay n.start then
        displayName p ++ " → " ++ displayName n
      else scanPeriods (frozen now) (dateAt now q) 0 (n :: rest) := by
  rw [scanPeriods_cons_cons]
  simp only [frozen, truthy_of_isHHMM _ hps, truthy_of_isHHMM _ hpe,
    dateLe_frozen now _ _ hps hq, dateLe_frozen now _ _ hq hpe, within]
  simp only [Bool.not_true, Bool.or_self, Bool.false_eq_true, if_false]
  split
  · rfl
  · simp only [dateLt_frozen now _ _ hpe hq, dateLt_frozen now _ _ hq hn,
      Bool.and_eq_true, decide_eq_true_eq]
    split
    · rfl
    · exact scanPeriods_frozen_index now _ _ _ _

/-- The checks before the loop at a frozen clock, in minutes of the day. -/
theorem resolvePeriods_frozen (now : Nat) (q : String) (hq : isHHMM q = true)
    (p0 : Period) (rest : List Period) (hwf : WellFormed (p0 :: rest)) :
    resolvePeriods (frozen now) (p0 :: rest) q =
      if minuteOfDay q < minuteOfDay p0.start then "Before School"
      else if 870 < minuteOfDay q then "After School"
      else
        match (p0 :: rest).find? (fun p => p.name == "1") with
        | some p1 =>
          if minuteOfDay q < minuteOfDay p1.start then "Period 1 starts at " ++ p1.start
          else scanPeriods (frozen now) (dateAt now q) 0 (p0 :: rest)
        | none => scanPeriods (frozen now) (dateAt now q) 0 (p0 :: rest) := by
  have h0 : isHHMM p0.start = true := (hwf p0 (by simp)).1
  have hfirst : (p0 :: rest).find? (fun p => truthy p.start) = some p0 :=
    List.find?_cons_of_pos _ (truthy_of_isHHMM _ h0)
  simp only [resolvePeriods, hfirst, frozen, dateLt_frozen now _ _ hq h0, decide_eq_true_eq,
    afterSchoolOnward, afterSchool_frozen now q hq]
  split
  · rfl
  · split
    · rfl
    · cases h1 : (p0 :: rest).find? (fun p => p.name == "1") with
      | none => exact scanPeriods_frozen_index now _ _ _ _
      | some p1 =>
        have h1s : isHHMM p1.start = true := (hwf p1 (List.mem_of_find?_eq_some h1)).1
        simp only [dateLt_frozen now _ _ hq h1s, decide_eq_true_eq]
        split
        · rfl
        · exact scanPeriods_frozen_index now _ _ _ _

/-- The loop passes over every leading interval that does not contain the query when the
query is not before the start of the interval that follows it. -/
theorem scanPeriods_frozen_skip (now : Nat) (q : String) (hq : isHHMM q = true)
    (pre : List Period) (p : Period) (post : List Period)
    (hwf : WellFormed (pre ++ p :: post))
    (hnot : ∀ x ∈ pre, within q x = false)
    (hstart : ∀ x ∈ pre ++ [p], minuteOfDay x.start ≤ minuteOfDay q) :
    scanPeriods (frozen now) (dateAt now q) 0 (pre ++ p :: post)
      = scanPeriods (frozen now) (dateAt now q) 0 (p :: post) := by
  induction pre with
  | nil => rfl
  | cons x pre2 ih =>
    have hx := hwf x (by simp)
    have hwf2 : WellFormed (pre2 ++ p :: post) := fun y hy => hwf y (by simp [hy])
    have hnx : within q x = false := hnot x (by simp)
    have ih2 := ih hwf2 (fun y hy => hnot y (by simp [hy]))
      (fun y hy => hstart y (by simp only [List.cons_append, List.mem_cons]; exact Or.inr hy))
    cases pre2 with
    | nil =>
      have hp := hstart p (by simp)
      have hpw := hwf p (by simp)
      simp only [List.cons_append, List.nil_append]
      rw [scanPeriods_frozen_cons now 0 q hq x p post hx.1 hx.2 hpw.1, hnx]
      simp only [Bool.false_eq_true, if_false]
      rw [if_neg (by omega)]
    | cons y pre3 =>
      have hy := hstart y (by simp)
      have hyw := hwf y (by simp)
      simp only [List.cons_append]
      rw [scanPeriods_frozen_cons now 0 q hq x y _ hx.1 hx.2 hyw.1, hnx]
      simp only [Bool.false_eq_true, if_false]
      rw [if_neg (by omega)]
      exact ih2

/-- At a frozen clock, on intervals sorted by start, the loop returns the display name of
the first interval that contains the query. -/
theorem scanPeriods_frozen_first (now : Nat) (q : String) (hq : isHHMM q = true)
    (ps : List Period) (hwf : WellFormed ps) (hsorted : SortedByStart ps) (p : Period)
    (hfind : ps.find? (within q) = some p) :
    scanPeriods (frozen now) (dateAt now q) 0 ps = displayName p := by
  obtain ⟨hp, pre, post, rfl, hpre⟩ := List.find?_eq_some.mp hfind
  have hpq : minuteOfDay p.start ≤ minuteOfDay q := by
    simp only [within, Bool.and_eq_true, decide_eq_true_eq] at hp
    exact hp.1
  have hpairs := (List.pairwise_append.mp hsorted).2.2
  rw [scanPeriods_frozen_skip now q hq pre p post hwf]
  · have hpwf := hwf p (by simp)
    cases post with
    | nil => rw [scanPeriods_frozen_single now 0 q hq p hpwf.1 hpwf.2, if_pos hp]
    | cons n post2 =>
      rw [scanPeriods_frozen_cons now 0 q hq p n post2 hpwf.1 hpwf.2 (hwf n (by simp)).1,
        if_pos hp]
  · intro x hx
    have := hpre x hx
    simpa using this
  · intro x hx
    rcases List.mem_append.mp hx with h | h
    · exact le_trans (hpairs x h p (by simp)) hpq
    · have : x = p := by simpa using h
      rw [this]; exact hpq

/-! ## A frozen clock: the instant does not matter -/

theorem dateLt_frozen_now (a b : Nat) (s t : String) :
    dateLt (dateAt a s) (dateAt a t) = dateLt (dateAt b s) (dateAt b t) := by
  unfold dateAt setHours
  rcases parseTime s with ⟨_ | h1, _ | m1⟩ <;> rcases parseTime t with ⟨_ | h2, _ | m2⟩ <;>
    simp only [dateLt]
  exact decide_eq_decide.mpr ⟨fun h => by omega, fun h => by omega⟩

theorem dateLe_frozen_now (a b : Nat) (s t : String) :
    dateLe (dateAt a s) (dateAt a t) = dateLe (dateAt b s) (dateAt b t) := by
  unfold dateAt setHours
  rcases parseTime s with ⟨_ | h1, _ | m1⟩ <;> rcases parseTime t with ⟨_ | h2, _ | m2⟩ <;>
    simp only [dateLe]
  exact decide_eq_decide.mpr ⟨fun h => by omega, fun h => by omega⟩

theorem afterSchool_frozen_now (a b : Nat) (q : String) :
    dateLt (setHours a (some 14) (some 30) 0) (dateAt a q)
      = dateLt (setHours b (some 14) (some 30) 0) (dateAt b q) := by
  unfold dateAt setHours
  rcases parseTime q with ⟨_ | h1, _ | m1⟩ <;> simp only [dateLt]
  exact decide_eq_decide.mpr ⟨fun h => by omega, fun h => by omega⟩

theorem scanPeriods_frozen_now (a b : Nat) (q : String) (ps : List Period) :
    ∀ k j : Nat, scanPeriods (frozen a) (dateAt a q) k ps
      = scanPeriods (frozen b) (dateAt b q) j ps := by
  induction ps with
  | nil => intro k j; rfl
  | cons p rest ih =>
    intro k j
    cases rest with
    | nil =>
      simp only [scanPeriods, frozen, dateLe_frozen_now a b p.start q,
        dateLe_frozen_now a b q p.end_]
    | cons n rest2 =>
      rw [scanPeriods_cons_cons, scanPeriods_cons_cons]
      simp only [frozen, dateLe_frozen_now a b p.start q, dateLe_frozen_now a b q p.end_,
        dateLt_frozen_now a b p.end_ q, dateLt_frozen_now a b q n.start, ih k j,
        ih (k + 3) (j + 3)]

theorem afterSchoolOnward_frozen_now (a b : Nat) (q : String) (ps : List Period)
    (k j : Nat) :
    afterSchoolOnward (frozen a) ps (dateAt a q) k
      = afterSchoolOnward (frozen b) ps (dateAt b q) j := by
  unfold afterSchoolOnward
  cases ps.find? (fun p => p.name == "1") with
  | none =>
    simp only [frozen, afterSchool_frozen_now a b q]
    rw [scanPeriods_frozen_now a b q ps (k + 1) (j + 1)]
  | some p1 =>
    simp only [frozen, afterSchool_frozen_now a b q, dateLt_frozen_now a b q p1.start]
    rw [scanPeriods_frozen_now a b q ps (k + 2) (j + 2)]

theorem resolvePeriods_frozen_now (a b : Nat) (ps : List Period) (q : String) :
    resolvePeriods (frozen a) ps q = resolvePeriods (frozen b) ps q := by
  unfold resolvePeriods
  cases ps.find? (fun p => truthy p.start) with
  | none => exact afterSchoolOnward_frozen_now a b q ps 1 1
  | some fp =>
    have h2 := afterSchoolOnward_frozen_now a b q ps 2 2
    have hlt := dateLt_frozen_now a b q fp.start
    simp only [frozen] at h2 ⊢
    rw [h2, hlt]

/-- When all the clock reads of a call return one instant, the result does not depend on
that instant: the call is a function of the catalog, the identifier and the query. -/
theorem getCurrentPeriod_frozen_now (catalog : Catalog) (a b : Nat)
    (scheduleType currentTime : String) :
    getCurrentPeriod catalog (frozen a) scheduleType currentTime
      = getCurrentPeriod catalog (frozen b) scheduleType currentTime := by
  cases hl : catalog.southampton_high_school.lookup scheduleType with
  | none => simp only [getCurrentPeriod, hl]
  | some schedule =>
    cases hp : schedule.periods with
    | none => simp only [getCurrentPeriod, hl, hp]
    | some periods =>
      simp only [getCurrentPeriod, hl, hp]
      exact resolvePeriods_frozen_now a b periods currentTime

/-! ## The strings a call can return -/

theorem scanOutputs_cons_subset (p : Period) (rest : List Period) (r : String)
    (h : r ∈ scanOutputs rest) : r ∈ scanOutputs (p :: rest) := by
  simp only [scanOutputs, List.mem_cons, List.mem_append, List.map_cons] at h ⊢
  rcases h with h | h | h
  · exact Or.inl h
  · exact Or.inr (Or.inl (Or.inr h))
  · refine Or.inr (Or.inr ?_)
    cases rest with
    | nil => simp [transitions] at h
    | cons n rest2 => simp only [transitions, List.mem_cons]; exact Or.inr h

theorem scanPeriods_mem (clock : Nat → Nat) (t : Option Nat) (ps : List Period) :
    ∀ k : Nat, scanPeriods clock t k ps ∈ scanOutputs ps := by
  induction ps with
  | nil => intro k; simp [scanPeriods, scanOutputs]
  | cons p rest ih =>
    intro k
    cases rest with
    | nil =>
      simp only [scanPeriods]
      split
      · simp [scanOutputs]
      · split <;> simp [scanOutputs]
    | cons n rest2 =>
      rw [scanPeriods_cons_cons]
      split
      · exact scanOutputs_cons_subset _ _ _ (ih k)
      · split
        · simp [scanOutputs]
        · split
          · simp [scanOutputs, transitions]
          · exact scanOutputs_cons_subset _ _ _ (ih (k + 3))

theorem afterSchoolOnward_mem (clock : Nat → Nat) (ps : List Period) (t : Option Nat)
    (k : Nat) : afterSchoolOnward clock ps t k ∈ resolveOutputs ps := by
  unfold afterSchoolOnward resolveOutputs
  simp only
  split
  · simp
  · cases h1 : ps.find? (fun p => p.name == "1") with
    | none =>
      simp only [Option.toList, List.map_nil, List.nil_append, List.mem_cons]
      exact Or.inr (Or.inr (scanPeriods_mem clock t ps _))
    | some p1 =>
      simp only [Option.toList, List.map_cons, List.map_nil, List.mem_cons, List.mem_append]
      split
      · exact Or.inr (Or.inr (Or.inl (Or.inl rfl)))
      · exact Or.inr (Or.inr (Or.inr (scanPeriods_mem clock t ps _)))

theorem resolvePeriods_mem (clock : Nat → Nat) (ps : List Period) (q : String) :
    resolvePeriods clock ps q ∈ resolveOutputs ps := by
  unfold resolvePeriods
  simp only
  split
  · split
    · simp [resolveOutputs]
    · exact afterSchoolOnward_mem clock ps _ _
  · exact afterSchoolOnward_mem clock ps _ _

/-- The own keys of the catalog of the source. -/
theorem SCHEDULES_lookup (scheduleType : String) (schedule : Schedule)
    (h : SCHEDULES.southampton_high_school.lookup scheduleType = some schedule) :
    schedule = regular_schedule ∨ schedule = two_hour_delay ∨ schedule = homeroom_schedule := by
  simp only [SCHEDULES, List.lookup] at h
  split at h
  · exact Or.inl (Option.some.inj h).symm
  · split at h
    · exact Or.inr (Or.inl (Option.some.inj h).symm)
    · split at h
      · exact Or.inr (Or.inr (Option.some.inj h).symm)
      · exact absurd h (by simp)

theorem getCurrentPeriod_eq (catalog : Catalog) (clock : Nat → Nat)
    (scheduleType currentTime : String) (schedule : Schedule) (periods : List Period)
    (hlookup : catalog.southampton_high_school.lookup scheduleType = some schedule)
    (hperiods : schedule.periods = some periods) :
    getCurrentPeriod catalog clock scheduleType currentTime
      = resolvePeriods clock periods currentTime := by
  simp only [getCurrentPeriod, hlookup, hperiods]

theorem SCHEDULES_wellFormed (scheduleType : String) (schedule : Schedule)
    (periods : List Period)
    (hlookup : SCHEDULES.southampton_high_school.lookup scheduleType = some schedule)
    (hperiods : schedule.periods = some periods) : WellFormed periods := by
  rcases SCHEDULES_lookup scheduleType schedule hlookup with h | h | h <;>
    · subst h
      cases hperiods
      unfold WellFormed
      decide

/-- At a frozen clock, on intervals sorted by start, a query that no earlier rule claims
resolves to the display name of the first interval that contains it. -/
theorem resolvePeriods_frozen_first (now : Nat) (q : String) (hq : isHHMM q = true)
    (ps : List Period) (hwf : WellFormed ps) (hsorted : SortedByStart ps) (p : Period)
    (hfind : ps.find? (within q) = some p)
    (hboundary : minuteOfDay q ≤ 870)
    (hp1 : ∀ p1 ∈ ps.find? (fun x => x.name == "1"), minuteOfDay p1.start ≤ minuteOfDay q) :
    resolvePeriods (frozen now) ps q = displayName p := by
  have hscan := scanPeriods_frozen_first now q hq ps hwf hsorted p hfind
  have hpmem : p ∈ ps := List.mem_of_find?_eq_some hfind
  have hpq : minuteOfDay p.start ≤ minuteOfDay q := by
    have hp := List.find?_some hfind
    simp only [within, Bool.and_eq_true, decide_eq_true_eq] at hp
    exact hp.1
  cases ps with
  | nil => simp at hfind
  | cons p0 rest =>
    have h0 : minuteOfDay p0.start ≤ minuteOfDay q := by
      rcases List.mem_cons.mp hpmem with h | h
      · rw [← h]; exact hpq
      · exact le_trans ((List.pairwise_cons.mp hsorted).1 p h) hpq
    rw [resolvePeriods_frozen now q hq p0 rest hwf, if_neg (by omega), if_neg (by omega)]
    cases h1 : (p0 :: rest).find? (fun x => x.name == "1") with
    | none => exact hscan
    | some p1 =>
      have := hp1 p1 (by rw [h1]; rfl)
      simp only
      rw [if_neg (by omega)]
      exact hscan

/-- At a frozen clock a query that none of the three checks before the loop claims is
resolved by the loop. -/
theorem resolvePeriods_frozen_scan (now : Nat) (q : String) (hq : isHHMM q = true)
    (ps : List Period) (hwf : WellFormed ps)
    (hfirst : ∀ p0 ∈ ps.head?, minuteOfDay p0.start ≤ minuteOfDay q)
    (hboundary : minuteOfDay q ≤ 870)
    (hp1 : ∀ p1 ∈ ps.find? (fun x => x.name == "1"), minuteOfDay p1.start ≤ minuteOfDay q) :
    resolvePeriods (frozen now) ps q = scanPeriods (frozen now) (dateAt now q) 0 ps := by
  cases ps with
  | nil =>
    simp only [resolvePeriods, List.find?_nil, afterSchoolOnward, frozen,
      afterSchool_frozen now q hq]
    rw [if_neg (by simp only [decide_eq_true_eq]; omega)]
    exact scanPeriods_frozen_index now _ _ _ _
  | cons p0 rest =>
    have h0 := hfirst p0 (by simp)
    rw [resolvePeriods_frozen now q hq p0 rest hwf, if_neg (by omega), if_neg (by omega)]
    cases h1 : (p0 :: rest).find? (fun x => x.name == "1") with
    | none => rfl
    | some p1 =>
      have := hp1 p1 (by rw [h1]; rfl)
      simp only
      rw [if_neg (by omega)]

/-- At a frozen clock the loop returns the transition string of a consecutive pair when the
query lies strictly between the two and the loop reaches the pair. -/
theorem scanPeriods_frozen_gap (now : Nat) (q : String) (hq : isHHMM q = true)
    (pre : List Period) (p n : Period) (post : List Period)
    (hwf : WellFormed (pre ++ p :: n :: post))
    (hnot : ∀ x ∈ pre, within q x = false)
    (hstart : ∀ x ∈ pre ++ [p], minuteOfDay x.start ≤ minuteOfDay q)
    (hend : minuteOfDay p.end_ < minuteOfDay q)
    (hnext : minuteOfDay q < minuteOfDay n.start) :
    scanPeriods (frozen now) (dateAt now q) 0 (pre ++ p :: n :: post)
      = displayName p ++ " → " ++ displayName n := by
  rw [scanPeriods_frozen_skip now q hq pre p (n :: post) hwf hnot hstart]
  have hp := hwf p (by simp)
  have hn := hwf n (by simp)
  rw [scanPeriods_frozen_cons now 0 q hq p n post hp.1 hp.2 hn.1]
  have hw : within q p = false := by
    simp only [within, Bool.and_eq_false_iff, decide_eq_false_iff_not]
    right; omega
  rw [hw]
  simp only [Bool.false_eq_true, if_false]
  rw [if_pos ⟨hend, hnext⟩]

theorem getElem?_split {α : Type} (ps : List α) :
    ∀ (i : Nat) (p : α), ps[i]? = some p → ∃ pre post, ps = pre ++ p :: post := by
  induction ps with
  | nil => intro i p h; simp at h
  | cons x xs ih =>
    intro i p h
    cases i with
    | zero =>
      simp only [List.getElem?_cons_zero, Option.some.injEq] at h
      exact ⟨[], xs, by rw [h]; rfl⟩
    | succ j =>
      simp only [List.getElem?_cons_succ] at h
      obtain ⟨pre, post, hps⟩ := ih j p h
      exact ⟨x :: pre, post, by rw [hps]; rfl⟩

theorem getElem?_split_pair {α : Type} (ps : List α) :
    ∀ (i : Nat) (p n : α), ps[i]? = some p → ps[i + 1]? = some n →
      ∃ pre post, ps = pre ++ p :: n :: post := by
  induction ps with
  | nil => intro i p n h; simp at h
  | cons x xs ih =>
    intro i p n h h2
    cases i with
    | zero =>
      simp only [List.getElem?_cons_zero, Option.some.injEq] at h
      simp only [zero_add, List.getElem?_cons_succ] at h2
      cases xs with
      | nil => simp at h2
      | cons y ys =>
        simp only [List.getElem?_cons_zero, Option.some.injEq] at h2
        exact ⟨[], ys, by rw [h, h2]; rfl⟩
    | succ j =>
      simp only [List.getElem?_cons_succ] at h h2
      obtain ⟨pre, post, hps⟩ := ih j p n h h2
      exact ⟨x :: pre, post, by rw [hps]; rfl⟩

theorem append_arrow_ne_self (a b : String) : a ≠ a ++ " → " ++ b := by
  intro h
  have hd := congrArg String.data h
  simp only [String.data_append] at hd
  have hl := congrArg List.length hd
  rw [List.length_append, List.length_append,
    show " → ".data.length = 3 from by decide] at hl
  omega

theorem prefix_of_append_eq (u v t : String) (h : u ++ v = t) : u.data <+: t.data :=
  ⟨v.data, by rw [← h]; rfl⟩

theorem suffix_of_append_eq (u v t : String) (h : u ++ v = t) : v.data <:+ t.data :=
  ⟨u.data, by rw [← h]; rfl⟩

theorem infix_of_arrow_eq (a b t : String) (h : a ++ " → " ++ b = t) :
    " → ".data <:+: t.data :=
  ⟨a.data, b.data, by rw [← h]; rfl⟩

theorem displayName_ne_not_in_session (p : Period) (h : p.name ≠ "Not in session") :
    displayName p ≠ "Not in session" := by
  unfold displayName
  split
  · intro he
    exact absurd (prefix_of_append_eq _ _ _ he) (by decide)
  · exact h

theorem not_in_session_not_mem_transitions (ps : List Period) :
    "Not in session" ∉ transitions ps := by
  induction ps with
  | nil => simp [transitions]
  | cons p rest ih =>
    cases rest with
    | nil => simp [transitions]
    | cons n rest2 =>
      simp only [transitions, List.mem_cons, not_or]
      refine ⟨?_, ih⟩
      intro he
      exact absurd (infix_of_arrow_eq _ _ _ he.symm) (by decide)

/-- At a frozen clock the loop returns a display name or a transition string, never the
final "Not in session", when the query lies between the first start and the last end. -/
theorem scanPeriods_frozen_cover (now : Nat) (q : String) (hq : isHHMM q = true)
    (ps : List Period) :
    ∀ (last : Period), WellFormed ps → ps.getLast? = some last →
      (∀ p0 ∈ ps.head?, minuteOfDay p0.start ≤ minuteOfDay q) →
      minuteOfDay q ≤ minuteOfDay last.end_ →
      scanPeriods (frozen now) (dateAt now q) 0 ps ∈ ps.map displayName ++ transitions ps := by
  induction ps with
  | nil => intro last _ hl; simp at hl
  | cons p rest ih =>
    intro last hwf hl hfirst hle
    have hp := hwf p (by simp)
    have h0 := hfirst p (by simp)
    cases rest with
    | nil =>
      simp only [List.getLast?_singleton, Option.some.injEq] at hl
      subst hl
      rw [scanPeriods_frozen_single now 0 q hq p hp.1 hp.2]
      have hw : within q p = true := by
        simp only [within, Bool.and_eq_true, decide_eq_true_eq]
        exact ⟨h0, hle⟩
      rw [if_pos hw]
      simp
    | cons n rest2 =>
      have hn := hwf n (by simp)
      rw [scanPeriods_frozen_cons now 0 q hq p n rest2 hp.1 hp.2 hn.1]
      split
      · simp
      · rename_i hw
        split
        · simp [transitions]
        · rename_i hgap
          have hw2 : ¬ (minuteOfDay p.start ≤ minuteOfDay q
              ∧ minuteOfDay q ≤ minuteOfDay p.end_) := by
            simpa [within] using hw
          have hns : minuteOfDay n.start ≤ minuteOfDay q := by
            by_contra hc
            exact hgap ⟨by omega, by omega⟩
          have := ih last (fun y hy => hwf y (by simp [hy]))
            (by rw [List.getLast?_cons_cons] at hl; exact hl)
            (fun y hy => by
              simp only [List.head?_cons, Option.mem_def, Option.some.injEq] at hy
              rw [← hy]; exact hns)
            hle
          simp only [List.map_cons, List.mem_append, List.mem_cons, transitions] at this ⊢
          rcases this with (h | h) | h
          · exact Or.inl (Or.inr (Or.inl h))
          · exact Or.inl (Or.inr (Or.inr h))
          · exact Or.inr (Or.inr h)

/-- At a frozen clock, on sorted non-overlapping intervals, a query after the last end falls
through the loop. -/
theorem scanPeriods_frozen_past (now : Nat) (q : String) (hq : isHHMM q = true)
    (init : List Period) (last : Period) (hwf : WellFormed (init ++ [last]))
    (hsorted : SortedByStart (init ++ [last])) (hdisjoint : NonOverlapping (init ++ [last]))
    (hlen : minuteOfDay last.start ≤ minuteOfDay last.end_)
    (hpast : minuteOfDay last.end_ < minuteOfDay q) :
    scanPeriods (frozen now) (dateAt now q) 0 (init ++ [last]) = "Not in session" := by
  have hcross := (List.pairwise_append.mp hdisjoint).2.2
  have hscross := (List.pairwise_append.mp hsorted).2.2
  rw [scanPeriods_frozen_skip now q hq init last [] hwf]
  · have hl := hwf last (by simp)
    rw [scanPeriods_frozen_single now 0 q hq last hl.1 hl.2]
    have hw : within q last = false := by
      simp only [within, Bool.and_eq_false_iff, decide_eq_false_iff_not]
      right; omega
    rw [hw]
    simp
  · intro x hx
    have := hcross x hx last (by simp)
    simp only [within, Bool.and_eq_false_iff, decide_eq_false_iff_not]
    right; omega
  · intro x hx
    rcases List.mem_append.mp hx with h | h
    · have := hscross x h last (by simp)
      omega
    · have : x = last := by simpa using h
      rw [this]; omega

/-- At a frozen clock, on well-formed intervals with start not after end, sorted by start
and non-overlapping, none named "Not in session", the result is "Not in session" exactly
for a query after the last end and not after 14:30. -/
theorem resolvePeriods_frozen_not_in_session (now : Nat) (q : String)
    (hq : isHHMM q = true) (ps : List Period) (last : Period)
    (hwf : WellFormed ps)
    (hlen : ∀ p ∈ ps, minuteOfDay p.start ≤ minuteOfDay p.end_)
    (hsorted : SortedByStart ps) (hdisjoint : NonOverlapping ps)
    (hname : ∀ p ∈ ps, p.name ≠ "Not in session")
    (hlast : ps.getLast? = some last) :
    resolvePeriods (frozen now) ps q = "Not in session"
      ↔ minuteOfDay last.end_ < minuteOfDay q ∧ minuteOfDay q ≤ 870 := by
  have hlmem : last ∈ ps := List.mem_of_getLast?_eq_some hlast
  have hnotmem : "Not in session" ∉ ps.map displayName ++ transitions ps := by
    simp only [List.mem_append, List.mem_map, not_or, not_exists, not_and]
    exact ⟨fun x hx => displayName_ne_not_in_session x (hname x hx),
      not_in_session_not_mem_transitions ps⟩
  constructor
  · intro hres
    cases ps with
    | nil => simp at hlast
    | cons p0 rest =>
      rw [resolvePeriods_frozen now q hq p0 rest hwf] at hres
      split at hres
      · exact absurd hres (by decide)
      · rename_i h0
        split at hres
        · exact absurd hres (by decide)
        · rename_i hb
          refine ⟨?_, by omega⟩
          by_contra hc
          have hcov := scanPeriods_frozen_cover now q hq (p0 :: rest) last hwf hlast
            (fun y hy => by
              simp only [List.head?_cons, Option.mem_def, Option.some.injEq] at hy
              rw [← hy]; omega)
            (by omega)
          split at hres
          · split at hres
            · exact absurd (prefix_of_append_eq _ _ _ hres) (by decide)
            · rw [hres] at hcov; exact hnotmem hcov
          · rw [hres] at hcov; exact hnotmem hcov
  · rintro ⟨hpast, hb⟩
    obtain ⟨init, rfl⟩ := List.getLast?_eq_some_iff.mp hlast
    have hscross := (List.pairwise_append.mp hsorted).2.2
    have hll := hlen last hlmem
    have hall : ∀ x ∈ init ++ [last], minuteOfDay x.start ≤ minuteOfDay q := by
      intro x hx
      rcases List.mem_append.mp hx with h | h
      · have := hscross x h last (by simp)
        omega
      · have : x = last := by simpa using h
        rw [this]; omega
    rw [resolvePeriods_frozen_scan now q hq _ hwf
      (fun y hy => hall y (List.mem_of_mem_head? hy)) hb
      (fun y hy => hall y (List.mem_of_find?_eq_some hy))]
    exact scanPeriods_frozen_past now q hq init last hwf hsorted hdisjoint hll hpast

/-- A query before the start of the interval named "1" is claimed by one of the three
checks before the loop, when the clock does not run backwards. -/
theorem resolvePeriods_before_period1 (clock : Nat → Nat) (hmono : Monotone clock)
    (ps : List Period) (p1 : Period) (q : String)
    (hfind : ps.find? (fun x => x.name == "1") = some p1)
    (h1 : isHHMM p1.start = true) (hq : isHHMM q = true)
    (hlt : minuteOfDay q < minuteOfDay p1.start) :
    resolvePeriods clock ps q = "Before School" ∨
      resolvePeriods clock ps q = "After School" ∨
      resolvePeriods clock ps q = "Period 1 starts at " ++ p1.start := by
  have hk : ∀ k, dateLt (dateAt (clock 0) q) (dateAt (clock k) p1.start) = true :=
    fun k => dateLt_of_le _ _ _ _ hq h1 (hmono (Nat.zero_le k)) hlt
  unfold resolvePeriods
  simp only
  split
  · split
    · exact Or.inl rfl
    · unfold afterSchoolOnward
      simp only [hfind, hk]
      split
      · exact Or.inr (Or.inl rfl)
      · exact Or.inr (Or.inr rfl)
  · unfold afterSchoolOnward
    simp only [hfind, hk]
    split
    · exact Or.inr (Or.inl rfl)
    · exact Or.inr (Or.inr rfl)

theorem arrow_not_mem_of_isHHMM (s : String) (h : isHHMM s = true) : '→' ∉ s.data := by
  unfold isHHMM at h
  split at h
  · rename_i a b sep c d hs
    simp only [Bool.and_eq_true, beq_iff_eq, decide_eq_true_eq] at h
    obtain ⟨⟨⟨⟨⟨⟨ha, hb⟩, hsep⟩, hc⟩, hd⟩, _⟩, _⟩ := h
    subst hsep
    rw [hs]
    intro hmem
    simp only [List.mem_cons, List.mem_nil_iff, or_false] at hmem
    rcases hmem with h | h | h | h | h
    · rw [← h] at ha; exact absurd ha (by decide)
    · rw [← h] at hb; exact absurd hb (by decide)
    · exact absurd h (by decide)
    · rw [← h] at hc; exact absurd hc (by decide)
    · rw [← h] at hd; exact absurd hd (by decide)
  · exact absurd h (by simp)

/-- None of the three results of the checks before the loop is a transition string. -/
theorem early_result_ne_transition (start r : String) (hs : isHHMM start = true)
    (hr : r = "Before School" ∨ r = "After School" ∨ r = "Period 1 starts at " ++ start)
    (a b : String) : r ≠ a ++ " → " ++ b := by
  intro he
  have hinf : " → ".data <:+: r.data := infix_of_arrow_eq a b r he.symm
  have hmem : '→' ∈ r.data := hinf.subset (by decide)
  rcases hr with h | h | h
  · rw [h] at hmem; exact absurd hmem (by decide)
  · rw [h] at hmem; exact absurd hmem (by decide)
  · rw [h, String.data_append, List.mem_append] at hmem
    rcases hmem with h1 | h1
    · exact absurd h1 (by decide)
    · exact arrow_not_mem_of_isHHMM start hs h1

theorem SCHEDULES_shape (scheduleType : String) (schedule : Schedule)
    (periods : List Period)
    (hlookup : SCHEDULES.southampton_high_school.lookup scheduleType = some schedule)
    (hperiods : schedule.periods = some periods) :
    (∀ p ∈ periods, minuteOfDay p.start ≤ minuteOfDay p.end_) ∧ SortedByStart periods ∧
      NonOverlapping periods ∧ (∀ p ∈ periods, p.name ≠ "Not in session") ∧
      ∀ last ∈ periods.getLast?, minuteOfDay last.end_ = 870 := by
  rcases SCHEDULES_lookup scheduleType schedule hlookup with h | h | h <;>
    · subst h
      cases hperiods
      unfold SortedByStart NonOverlapping
      decide

/-- The strings a call on the homeroom schedule can return at a frozen clock. -/
theorem homeroom_results (now : Nat) (q : String) (hq : isHHMM q = true) :
    getCurrentPeriod SCHEDULES (frozen now) "homeroom_schedule" q ∈
      "Before School" :: "After School" :: "Period 1 starts at 07:44" ::
        scanOutputs ((homeroom_schedule.periods.getD []).drop 2) := by
  have hl : SCHEDULES.southampton_high_school.lookup "homeroom_schedule"
      = some homeroom_schedule := by decide
  have hp : homeroom_schedule.periods = some (homeroom_schedule.periods.getD []) := by rfl
  have hwf : WellFormed (homeroom_schedule.periods.getD []) :=
    SCHEDULES_wellFormed _ _ _ hl hp
  have hfind : (homeroom_schedule.periods.getD []).find? (fun x => x.name == "1")
      = some ⟨"1", "07:44", "08:26", 38⟩ := by decide
  have h744 : minuteOfDay "07:44" = 464 := by decide
  rw [getCurrentPeriod_eq SCHEDULES _ _ _ homeroom_schedule _ hl hp]
  by_cases hlt : minuteOfDay q < 464
  · have hmono : Monotone (frozen now) := fun _ _ _ => le_refl _
    rcases resolvePeriods_before_period1 (frozen now) hmono _ _ q hfind (by decide) hq
      (by rw [h744]; exact hlt) with h | h | h <;> rw [h] <;> simp
  · by_cases hb : 870 < minuteOfDay q
    · have hr : resolvePeriods (frozen now) (homeroom_schedule.periods.getD []) q
          = "After School" := by
        have hw : WellFormed (homeroom_schedule.periods.getD []) := hwf
        have hs : minuteOfDay "07:20" = 440 := by decide
        simp only [homeroom_schedule, Option.getD] at hw ⊢
        rw [resolvePeriods_frozen now q hq _ _ hw]
        simp only [hs]
        rw [if_neg (by omega), if_pos hb]
      rw [hr]; simp
    · have hscan := resolvePeriods_frozen_scan now q hq (homeroom_schedule.periods.getD [])
        hwf
        (by
          intro p0 hp0
          have : p0 = ⟨"Warning", "07:20", "07:25", 5⟩ := by
            have e : (homeroom_schedule.periods.getD []).head?
                = some ⟨"Warning", "07:20", "07:25", 5⟩ := by rfl
            rw [e] at hp0
            exact (Option.some.inj hp0).symm
          rw [this]
          show minuteOfDay "07:20" ≤ _
          have hs : minuteOfDay "07:20" = 440 := by decide
          omega)
        (by omega)
        (by
          intro p1 hp1
          have hp1b : (homeroom_schedule.periods.getD []).find? (fun x => x.name == "1")
              = some p1 := hp1
          rw [hfind] at hp1b
          rw [← Option.some.inj hp1b]
          show minuteOfDay "07:44" ≤ _
          omega)
      rw [hscan]
      have hsplit : homeroom_schedule.periods.getD []
          = [⟨"Warning", "07:20", "07:25", 5⟩, ⟨"Homeroom", "07:25", "07:40", 15⟩]
            ++ ⟨"1", "07:44", "08:26", 38⟩
              :: (homeroom_schedule.periods.getD []).drop 3 := by rfl
      have hdrop : (homeroom_schedule.periods.getD []).drop 2
          = ⟨"1", "07:44", "08:26", 38⟩ :: (homeroom_schedule.periods.getD []).drop 3 := by
        rfl
      rw [hdrop]
      rw [hsplit] at hwf ⊢
      rw [scanPeriods_frozen_skip now q hq _ _ _ hwf]
      · simp only [List.mem_cons]
        exact Or.inr (Or.inr (Or.inr (scanPeriods_mem _ _ _ _)))
      · have e1 : minuteOfDay "07:25" = 445 := by decide
        have e2 : minuteOfDay "07:40" = 460 := by decide
        intro x hx
        simp only [List.mem_cons, List.mem_nil_iff, or_false] at hx
        rcases hx with h | h <;> subst h <;>
          simp only [within, Bool.and_eq_false_iff, decide_eq_false_iff_not, e1, e2] <;>
          right <;> omega
      · have e0 : minuteOfDay "07:20" = 440 := by decide
        have e1 : minuteOfDay "07:25" = 445 := by decide
        intro x hx
        simp only [List.cons_append, List.nil_append, List.mem_cons, List.mem_nil_iff,
          or_false] at hx
        rcases hx with h | h | h <;> subst h <;> simp only [e0, e1, h744] <;> omega

/-! ## A call whose clock reads agree

The results of this section hold for a call all of whose `new Date()` reads return one
instant (`frozen now`), and, where stated, for every clock that does not run backwards. -/

/-- On the regular schedule, when all the clock reads of the call return one instant: a
query within an interval and not before 07:25, the start of Period 1, resolves to the
display name of the first interval containing it, "Period " followed by the name when the
name is all decimal digits and the name verbatim otherwise; a query within an interval and
before 07:25 resolves to "Period 1 starts at 07:25". -/
theorem regular_within_display (now : Nat) (currentTime : String) (periods : List Period)
    (p : Period)
    (hperiods : regular_schedule.periods = some periods)
    (hq : isHHMM currentTime = true)
    (hfind : periods.find? (within currentTime) = some p) :
    (minuteOfDay "07:25" ≤ minuteOfDay currentTime →
      getCurrentPeriod SCHEDULES (frozen now) "regular_schedule" currentTime
        = if isNumeric p.name = true then "Period " ++ p.name else p.name) ∧
    (minuteOfDay currentTime < minuteOfDay "07:25" →
      getCurrentPeriod SCHEDULES (frozen now) "regular_schedule" currentTime
        = "Period 1 starts at 07:25") := by
  have hl : SCHEDULES.southampton_high_school.lookup "regular_schedule"
      = some regular_schedule := by decide
  have hwf : WellFormed periods := SCHEDULES_wellFormed _ _ _ hl hperiods
  rw [getCurrentPeriod_eq SCHEDULES _ _ _ regular_schedule periods hl hperiods]
  have hpmem : p ∈ periods := List.mem_of_find?_eq_some hfind
  have hp := List.find?_some hfind
  simp only [within, Bool.and_eq_true, decide_eq_true_eq] at hp
  cases hperiods
  have hbounds : ∀ x ∈ regular_schedule.periods.getD [],
      440 ≤ minuteOfDay x.start ∧ minuteOfDay x.end_ ≤ 870 := by decide
  have hb := hbounds p hpmem
  have h725 : minuteOfDay "07:25" = 445 := by decide
  rw [h725]
  constructor
  · intro hge
    refine resolvePeriods_frozen_first now currentTime hq _ hwf (by unfold SortedByStart; decide)
      p hfind (by omega) ?_
    intro p1 hp1
    have : p1 = ⟨"1", "07:25", "08:09", 40⟩ := by
      have e : List.find? (fun x : Period => x.name == "1") (regular_schedule.periods.getD [])
          = some ⟨"1", "07:25", "08:09", 40⟩ := by decide
      have hp1b : List.find? (fun x : Period => x.name == "1")
          (regular_schedule.periods.getD []) = some p1 := hp1
      rw [e] at hp1b
      exact (Option.some.inj hp1b).symm
    rw [this]
    show minuteOfDay "07:25" ≤ _
    omega
  · intro hlt
    have e : resolvePeriods (frozen now) (regular_schedule.periods.getD []) currentTime
        = "Period 1 starts at 07:25" := by
      have hw : WellFormed (regular_schedule.periods.getD []) := hwf
      have hs : minuteOfDay "07:20" = 440 := by decide
      simp only [regular_schedule, Option.getD] at hw ⊢
      rw [resolvePeriods_frozen now currentTime hq _ _ hw]
      simp only [hs]
      rw [if_neg (by omega), if_neg (by omega)]
      simp only [List.find?, show ("Warning Bell" == "1") = false from by decide,
        show ("1" == "1") = true from by decide, h725]
      rw [if_pos hlt]
      decide
    exact e

theorem regular_within_display_witness :
    getCurrentPeriod SCHEDULES (frozen 0) "regular_schedule" "07:30" = "Period 1" ∧
      getCurrentPeriod SCHEDULES (frozen 0) "regular_schedule" "07:22"
        = "Period 1 starts at 07:25" :=
  ⟨(regular_within_display 0 "07:30" _ ⟨"1", "07:25", "08:09", 40⟩ (by rfl) (by decide)
      (by decide)).1 (by decide),
    (regular_within_display 0 "07:22" _ ⟨"Warning Bell", "07:20", "07:25", 5⟩ (by rfl)
      (by decide) (by decide)).2 (by decide)⟩

/-- When all the clock reads of the call return one instant: on a schedule whose intervals
are well-formed, sorted by start and non-overlapping, a query equal to the end of interval
`i` (an interval with start before end) that is not after 14:30 and not before the start of
the interval named "1" resolves to the display name of interval `i`, and so not to the
transition string from `i` to `i + 1`. -/
theorem end_boundary_is_within (catalog : Catalog) (now : Nat)
    (scheduleType currentTime : String) (schedule : Schedule) (periods : List Period)
    (i : Nat) (p : Period)
    (hlookup : catalog.southampton_high_school.lookup scheduleType = some schedule)
    (hperiods : schedule.periods = some periods)
    (hwf : WellFormed periods) (hsorted : SortedByStart periods)
    (hdisjoint : NonOverlapping periods)
    (hi : periods[i]? = some p)
    (hlen : minuteOfDay p.start < minuteOfDay p.end_)
    (hq : isHHMM currentTime = true)
    (hend : minuteOfDay currentTime = minuteOfDay p.end_)
    (hboundary : minuteOfDay currentTime ≤ 870)
    (hp1 : ∀ p1 ∈ periods.find? (fun x => x.name == "1"),
      minuteOfDay p1.start ≤ minuteOfDay currentTime) :
    getCurrentPeriod catalog (frozen now) scheduleType currentTime = displayName p ∧
      ∀ n, periods[i + 1]? = some n →
        getCurrentPeriod catalog (frozen now) scheduleType currentTime
          ≠ displayName p ++ " → " ++ displayName n := by
  have hres : getCurrentPeriod catalog (frozen now) scheduleType currentTime
      = displayName p := by
    rw [getCurrentPeriod_eq catalog _ _ _ schedule periods hlookup hperiods]
    obtain ⟨pre, post, rfl⟩ := getElem?_split periods i p hi
    have hcross := (List.pairwise_append.mp hdisjoint).2.2
    refine resolvePeriods_frozen_first now currentTime hq _ hwf hsorted p ?_ hboundary hp1
    refine List.find?_eq_some.mpr ⟨?_, pre, post, rfl, ?_⟩
    · simp only [within, Bool.and_eq_true, decide_eq_true_eq]
      omega
    · intro a ha
      have := hcross a ha p (by simp)
      simp only [within, Bool.not_eq_true', Bool.and_eq_false_iff, decide_eq_false_iff_not]
      right; omega
  refine ⟨hres, ?_⟩
  intro n _
  rw [hres]
  exact append_arrow_ne_self _ _

theorem end_boundary_is_within_witness :
    getCurrentPeriod SCHEDULES (frozen 0) "regular_schedule" "14:30" = "Extra Help" ∧
      getCurrentPeriod SCHEDULES (frozen 0) "regular_schedule" "08:09" = "Period 1" :=
  ⟨(end_boundary_is_within SCHEDULES 0 "regular_schedule" "14:30" regular_schedule _ 10
      ⟨"Extra Help", "14:05", "14:30", 25⟩ (by decide) (by rfl)
      (by unfold WellFormed; decide) (by unfold SortedByStart; decide)
      (by unfold NonOverlapping; decide) (by rfl) (by decide) (by decide) (by decide)
      (by decide) (by decide)).1,
    (end_boundary_is_within SCHEDULES 0 "regular_schedule" "08:09" regular_schedule _ 1
      ⟨"1", "07:25", "08:09", 40⟩ (by decide) (by rfl)
      (by unfold WellFormed; decide) (by unfold SortedByStart; decide)
      (by unfold NonOverlapping; decide) (by rfl) (by decide) (by decide) (by decide)
      (by decide) (by decide)).1⟩

/-- When all the clock reads of the call return one instant: on a schedule whose intervals
are well-formed, sorted by start and non-overlapping, a query strictly between the end of
interval `i` (an interval with start not after end) and the start of interval `i + 1` that
is not after 14:30 and not before the start of the interval named "1" resolves to the
display name of `i`, then " → ", then the display name of `i + 1`. -/
theorem gap_is_transition (catalog : Catalog) (now : Nat)
    (scheduleType currentTime : String) (schedule : Schedule) (periods : List Period)
    (i : Nat) (p n : Period)
    (hlookup : catalog.southampton_high_school.lookup scheduleType = some schedule)
    (hperiods : schedule.periods = some periods)
    (hwf : WellFormed periods) (hsorted : SortedByStart periods)
    (hdisjoint : NonOverlapping periods)
    (hi : periods[i]? = some p) (hnext : periods[i + 1]? = some n)
    (hlen : minuteOfDay p.start ≤ minuteOfDay p.end_)
    (hq : isHHMM currentTime = true)
    (hafter : minuteOfDay p.end_ < minuteOfDay currentTime)
    (hbefore : minuteOfDay currentTime < minuteOfDay n.start)
    (hboundary : minuteOfDay currentTime ≤ 870)
    (hp1 : ∀ p1 ∈ periods.find? (fun x => x.name == "1"),
      minuteOfDay p1.start ≤ minuteOfDay currentTime) :
    getCurrentPeriod catalog (frozen now) scheduleType currentTime
      = (if isNumeric p.name = true then "Period " ++ p.name else p.name) ++ " → "
        ++ (if isNumeric n.name = true then "Period " ++ n.name else n.name) := by
  rw [getCurrentPeriod_eq catalog _ _ _ schedule periods hlookup hperiods]
  obtain ⟨pre, post, rfl⟩ := getElem?_split_pair periods i p n hi hnext
  have hcross := (List.pairwise_append.mp hdisjoint).2.2
  have hscross := (List.pairwise_append.mp hsorted).2.2
  have hstart : ∀ x ∈ pre ++ [p], minuteOfDay x.start ≤ minuteOfDay currentTime := by
    intro x hx
    rcases List.mem_append.mp hx with h | h
    · have := hscross x h p (by simp)
      omega
    · have : x = p := by simpa using h
      rw [this]; omega
  rw [resolvePeriods_frozen_scan now currentTime hq _ hwf ?_ hboundary hp1]
  · exact scanPeriods_frozen_gap now currentTime hq pre p n post hwf
      (fun a ha => by
        have := hcross a ha p (by simp)
        simp only [within, Bool.and_eq_false_iff, decide_eq_false_iff_not]
        right; omega)
      hstart hafter hbefore
  · intro p0 hp0
    have hmem : p0 ∈ pre ++ [p] := by
      cases pre with
      | nil =>
        simp only [List.nil_append, List.head?_cons, Option.mem_def, Option.some.injEq] at hp0
        simp [hp0]
      | cons y ys =>
        simp only [List.cons_append, List.head?_cons, Option.mem_def, Option.some.injEq] at hp0
        simp [hp0]
    exact hstart p0 hmem

theorem gap_is_transition_witness :
    getCurrentPeriod SCHEDULES (frozen 0) "regular_schedule" "14:03"
        = "Period 9 → Extra Help" ∧
      getCurrentPeriod SCHEDULES (frozen 0) "regular_schedule" "08:11"
        = "Period 1 → Period 2" :=
  ⟨gap_is_transition SCHEDULES 0 "regular_schedule" "14:03" regular_schedule _ 9
      ⟨"9", "13:21", "14:01", 40⟩ ⟨"Extra Help", "14:05", "14:30", 25⟩ (by decide) (by rfl)
      (by unfold WellFormed; decide) (by unfold SortedByStart; decide)
      (by unfold NonOverlapping; decide) (by rfl) (by rfl) (by decide) (by decide)
      (by decide) (by decide) (by decide) (by decide),
    gap_is_transition SCHEDULES 0 "regular_schedule" "08:11" regular_schedule _ 1
      ⟨"1", "07:25", "08:09", 40⟩ ⟨"2", "08:13", "08:53", 40⟩ (by decide) (by rfl)
      (by unfold WellFormed; decide) (by unfold SortedByStart; decide)
      (by unfold NonOverlapping; decide) (by rfl) (by rfl) (by decide) (by decide)
      (by decide) (by decide) (by decide) (by decide)⟩

/-- On a schedule that contains an interval named "1" with a well-formed start, a
well-formed query strictly before that start resolves to "Before School", "After School" or
"Period 1 starts at " followed by that start, and to no transition string, whenever the
clock does not run backwards; and on the homeroom schedule, when all the clock reads of the
call return one instant, no time of day resolves to "Homeroom", to "Warning", or to a
transition string that begins or ends with either. -/
theorem before_period1_never_interval :
    (∀ (catalog : Catalog) (clock : Nat → Nat) (scheduleType currentTime : String)
        (schedule : Schedule) (periods : List Period) (p1 : Period),
        catalog.southampton_high_school.lookup scheduleType = some schedule →
        schedule.periods = some periods →
        periods.find? (fun x => x.name == "1") = some p1 →
        isHHMM p1.start = true → isHHMM currentTime = true → Monotone clock →
        minuteOfDay currentTime < minuteOfDay p1.start →
        (getCurrentPeriod catalog clock scheduleType currentTime = "Before School" ∨
          getCurrentPeriod catalog clock scheduleType currentTime = "After School" ∨
          getCurrentPeriod catalog clock scheduleType currentTime
            = "Period 1 starts at " ++ p1.start) ∧
        ∀ a b : String,
          getCurrentPeriod catalog clock scheduleType currentTime ≠ a ++ " → " ++ b) ∧
    (∀ (now : Nat) (currentTime : String), isHHMM currentTime = true →
      getCurrentPeriod SCHEDULES (frozen now) "homeroom_schedule" currentTime ≠ "Homeroom" ∧
      getCurrentPeriod SCHEDULES (frozen now) "homeroom_schedule" currentTime ≠ "Warning" ∧
      ∀ x : String,
        getCurrentPeriod SCHEDULES (frozen now) "homeroom_schedule" currentTime
          ≠ "Homeroom" ++ " → " ++ x ∧
        getCurrentPeriod SCHEDULES (frozen now) "homeroom_schedule" currentTime
          ≠ x ++ " → " ++ "Homeroom" ∧
        getCurrentPeriod SCHEDULES (frozen now) "homeroom_schedule" currentTime
          ≠ "Warning" ++ " → " ++ x ∧
        getCurrentPeriod SCHEDULES (frozen now) "homeroom_schedule" currentTime
          ≠ x ++ " → " ++ "Warning") := by
  constructor
  · intro catalog clock scheduleType currentTime schedule periods p1 hl hp hfind h1 hq hmono hlt
    rw [getCurrentPeriod_eq catalog clock _ _ schedule periods hl hp]
    have h3 := resolvePeriods_before_period1 clock hmono periods p1 currentTime hfind h1 hq hlt
    exact ⟨h3, early_result_ne_transition p1.start _ h1 h3⟩
  · intro now currentTime hq
    have hmem := homeroom_results now currentTime hq
    have hall : ∀ r ∈ "Before School" :: "After School" :: "Period 1 starts at 07:44" ::
        scanOutputs ((homeroom_schedule.periods.getD []).drop 2),
        r ≠ "Homeroom" ∧ r ≠ "Warning" ∧
          ¬ ("Homeroom" ++ " → ").data <+: r.data ∧ ¬ "Homeroom".data <:+ r.data ∧
          ¬ ("Warning" ++ " → ").data <+: r.data ∧ ¬ "Warning".data <:+ r.data := by
      decide
    obtain ⟨h1, h2, h3, h4, h5, h6⟩ := hall _ hmem
    refine ⟨h1, h2, fun x => ⟨?_, ?_, ?_, ?_⟩⟩
    · intro he
      exact h3 (prefix_of_append_eq _ _ _ he.symm)
    · intro he
      exact h4 (suffix_of_append_eq _ _ _ he.symm)
    · intro he
      exact h5 (prefix_of_append_eq _ _ _ he.symm)
    · intro he
      exact h6 (suffix_of_append_eq _ _ _ he.symm)

theorem before_period1_never_interval_witness :
    (getCurrentPeriod SCHEDULES (fun k => 1000 * k) "homeroom_schedule" "07:30"
        = "Before School" ∨
      getCurrentPeriod SCHEDULES (fun k => 1000 * k) "homeroom_schedule" "07:30"
        = "After School" ∨
      getCurrentPeriod SCHEDULES (fun k => 1000 * k) "homeroom_schedule" "07:30"
        = "Period 1 starts at " ++ "07:44") ∧
    getCurrentPeriod SCHEDULES (frozen 0) "homeroom_schedule" "07:30" ≠ "Homeroom" :=
  ⟨(before_period1_never_interval.1 SCHEDULES (fun k => 1000 * k) "homeroom_schedule" "07:30"
      homeroom_schedule _ ⟨"1", "07:44", "08:26", 38⟩ (by decide) (by rfl) (by decide)
      (by decide) (by decide) (fun a b h => Nat.mul_le_mul_left 1000 h) (by decide)).1,
    (before_period1_never_interval.2 0 "07:30" (by decide)).1⟩

/-- When all the clock reads of the call return one instant: on a non-empty schedule whose
intervals are well-formed with start not after end, sorted by start and non-overlapping,
none named "Not in session" (every schedule of the catalog is one), a well-formed query
resolves to "Not in session" exactly when it is strictly after the end of the last interval
and not after 14:30; hence on the schedules of the catalog, whose last interval ends at
14:30, no time of day then resolves to "Not in session". -/
theorem not_in_session_iff (catalog : Catalog) (now : Nat)
    (scheduleType currentTime : String) (schedule : Schedule) (periods : List Period)
    (last : Period)
    (hlookup : catalog.southampton_high_school.lookup scheduleType = some schedule)
    (hperiods : schedule.periods = some periods)
    (hlast : periods.getLast? = some last)
    (hq : isHHMM currentTime = true)
    (hshape : catalog = SCHEDULES ∨
      (WellFormed periods ∧ (∀ p ∈ periods, minuteOfDay p.start ≤ minuteOfDay p.end_) ∧
        SortedByStart periods ∧ NonOverlapping periods ∧
        ∀ p ∈ periods, p.name ≠ "Not in session")) :
    (getCurrentPeriod catalog (frozen now) scheduleType currentTime = "Not in session"
      ↔ minuteOfDay last.end_ < minuteOfDay currentTime ∧ minuteOfDay currentTime ≤ 870) ∧
    (catalog = SCHEDULES →
      getCurrentPeriod catalog (frozen now) scheduleType currentTime ≠ "Not in session") := by
  have hs : WellFormed periods ∧ (∀ p ∈ periods, minuteOfDay p.start ≤ minuteOfDay p.end_) ∧
      SortedByStart periods ∧ NonOverlapping periods ∧
      ∀ p ∈ periods, p.name ≠ "Not in session" := by
    rcases hshape with hc | h
    · subst hc
      have := SCHEDULES_shape scheduleType schedule periods hlookup hperiods
      exact ⟨SCHEDULES_wellFormed _ _ _ hlookup hperiods, this.1, this.2.1, this.2.2.1,
        this.2.2.2.1⟩
    · exact h
  obtain ⟨hwf, hlen, hsorted, hdisjoint, hname⟩ := hs
  have hiff := resolvePeriods_frozen_not_in_session now currentTime hq periods last hwf hlen
    hsorted hdisjoint hname hlast
  rw [getCurrentPeriod_eq catalog _ _ _ schedule periods hlookup hperiods]
  refine ⟨hiff, ?_⟩
  intro hc hres
  subst hc
  have h870 := (SCHEDULES_shape scheduleType schedule periods hlookup hperiods).2.2.2.2 last
    hlast
  have := hiff.mp hres
  omega

theorem not_in_session_iff_witness :
    getCurrentPeriod morningCatalog (frozen 0) "morning" "13:00" = "Not in session" ∧
      getCurrentPeriod morningCatalog (frozen 0) "morning" "12:00" ≠ "Not in session" ∧
      getCurrentPeriod SCHEDULES (frozen 0) "two_hour_delay" "14:30" ≠ "Not in session" :=
  ⟨(not_in_session_iff morningCatalog 0 "morning" "13:00" morningSchedule _ ⟨"1", "08:00", "12:00", 240⟩
      (by decide) (by rfl) (by decide) (by decide)
      (Or.inr ⟨by unfold WellFormed; decide, by decide, by unfold SortedByStart; decide,
        by unfold NonOverlapping; decide, by decide⟩)).1.mpr (by decide),
    fun h => absurd ((not_in_session_iff morningCatalog 0 "morning" "12:00" morningSchedule _
      ⟨"1", "08:00", "12:00", 240⟩ (by decide) (by rfl) (by decide) (by decide)
      (Or.inr ⟨by unfold WellFormed; decide, by decide, by unfold SortedByStart; decide,
        by unfold NonOverlapping; decide, by decide⟩)).1.mp h).1 (by decide),
    (not_in_session_iff SCHEDULES 0 "two_hour_delay" "14:30" two_hour_delay _
      ⟨"Extra Help", "14:05", "14:30", 25⟩ (by decide) (by rfl) (by decide) (by decide)
      (Or.inl rfl)).2 rfl⟩

/-! ## The claims -/

/-- Claim C1: for every schedule of the catalog, and every schedule whose first interval has
a well-formed start, a well-formed query strictly before the start of the first interval
resolves to "Before School" (the second clock read not being earlier than the first). -/
theorem before_school_of_lt_first_start (catalog : Catalog) (clock : Nat → Nat)
    (scheduleType currentTime : String) (schedule : Schedule) (p0 : Period)
    (rest : List Period)
    (hlookup : catalog.southampton_high_school.lookup scheduleType = some schedule)
    (hperiods : schedule.periods = some (p0 :: rest))
    (hstart : catalog = SCHEDULES ∨ isHHMM p0.start = true)
    (hq : isHHMM currentTime = true)
    (hclock : clock 0 ≤ clock 1)
    (hbefore : minuteOfDay currentTime < minuteOfDay p0.start) :
    getCurrentPeriod catalog clock scheduleType currentTime = "Before School" := by
  have h0 : isHHMM p0.start = true := by
    rcases hstart with hc | h
    · subst hc
      exact (SCHEDULES_wellFormed scheduleType schedule _ hlookup hperiods p0 (by simp)).1
    · exact h
  rw [getCurrentPeriod_eq catalog clock _ _ schedule _ hlookup hperiods]
  have hfirst : (p0 :: rest).find? (fun p => truthy p.start) = some p0 :=
    List.find?_cons_of_pos _ (truthy_of_isHHMM _ h0)
  simp only [resolvePeriods, hfirst, dateLt_of_le _ _ _ _ hq h0 hclock hbefore, if_true]

theorem before_school_of_lt_first_start_witness :
    getCurrentPeriod SCHEDULES (fun k => 1000 * k) "regular_schedule" "06:45"
      = "Before School" :=
  before_school_of_lt_first_start SCHEDULES (fun k => 1000 * k) "regular_schedule" "06:45"
    regular_schedule ⟨"Warning Bell", "07:20", "07:25", 5⟩ _ (by decide) (by rfl)
    (Or.inl rfl) (by decide) (by decide) (by decide)

/-- Claim C2, as stated, fails: on a schedule whose first interval starts at 15:00 the
query 14:45, strictly after 14:30, resolves to "Before School". -/
theorem after_school_counterexample :
    isHHMM "14:45" = true ∧ 870 < minuteOfDay "14:45" ∧
      getCurrentPeriod eveningCatalog (frozen 0) "evening" "14:45" = "Before School" ∧
      getCurrentPeriod eveningCatalog (frozen 0) "evening" "14:45" ≠ "After School" := by
  decide

/-- Claim C2, amended: when all the clock reads of the call return one instant, for every
schedule of the catalog, and every schedule whose first interval with a non-empty start (if
any) has a well-formed start not later than the query, a well-formed query strictly after
14:30 resolves to "After School", whatever its position relative to the intervals. -/
theorem after_school_of_gt_boundary (catalog : Catalog) (now : Nat)
    (scheduleType currentTime : String) (schedule : Schedule) (periods : List Period)
    (hlookup : catalog.southampton_high_school.lookup scheduleType = some schedule)
    (hperiods : schedule.periods = some periods)
    (hq : isHHMM currentTime = true)
    (hafter : 870 < minuteOfDay currentTime)
    (hfirst : catalog = SCHEDULES ∨
      ∀ p ∈ periods.find? (fun p => truthy p.start),
        isHHMM p.start = true ∧ minuteOfDay p.start ≤ minuteOfDay currentTime) :
    getCurrentPeriod catalog (frozen now) scheduleType currentTime = "After School" := by
  have hf : ∀ p ∈ periods.find? (fun p => truthy p.start),
      isHHMM p.start = true ∧ minuteOfDay p.start ≤ minuteOfDay currentTime := by
    rcases hfirst with hc | h
    · subst hc
      intro p hp
      have hmem : p ∈ periods := List.mem_of_find?_eq_some hp
      refine ⟨(SCHEDULES_wellFormed scheduleType schedule _ hlookup hperiods p hmem).1, ?_⟩
      have hle : minuteOfDay p.start ≤ 870 := by
        rcases SCHEDULES_lookup scheduleType schedule hlookup with h | h | h <;>
          · subst h
            cases hperiods
            revert p
            decide
      omega
    · exact h
  rw [getCurrentPeriod_eq catalog _ _ _ schedule _ hlookup hperiods]
  unfold resolvePeriods
  simp only
  cases hfp : periods.find? (fun p => truthy p.start) with
  | none =>
    simp only [afterSchoolOnward, frozen, afterSchool_frozen now _ hq, hafter, decide_True,
      if_true]
  | some fp =>
    obtain ⟨hfw, hfle⟩ := hf fp (by rw [hfp]; rfl)
    simp only [frozen, dateLt_frozen now _ _ hq hfw, afterSchoolOnward,
      afterSchool_frozen now _ hq, hafter, decide_True, if_true]
    rw [if_neg (by simp only [decide_eq_true_eq]; omega)]

theorem after_school_of_gt_boundary_witness :
    getCurrentPeriod SCHEDULES (frozen 1762300800123) "regular_schedule" "14:31"
      = "After School" :=
  after_school_of_gt_boundary SCHEDULES 1762300800123 "regular_schedule" "14:31"
    regular_schedule _ (by decide) (by rfl) (by decide) (by decide) (Or.inl rfl)

/-- Claim C3 fails on the code: 07:22 lies within Warning Bell (07:20 to 07:25) on the
regular schedule, the source labels that test time "During warning bell", and the call
returns "Period 1 starts at 07:25", whether the clock is frozen or ticks during the call;
and at 08:13, the first minute of Period 2, a clock that ticks by one millisecond after the
first read makes the call return "Period 1 → Period 2". -/
theorem warning_bell_hidden_by_period1_guard :
    within "07:22" ⟨"Warning Bell", "07:20", "07:25", 5⟩ = true ∧
      getCurrentPeriod SCHEDULES (frozen 0) "regular_schedule" "07:22"
        = "Period 1 starts at 07:25" ∧
      getCurrentPeriod SCHEDULES (tickAfterFirst 0) "regular_schedule" "07:22"
        = "Period 1 starts at 07:25" ∧
      getCurrentPeriod SCHEDULES (frozen 0) "regular_schedule" "07:22" ≠ "Warning Bell" ∧
      within "08:13" ⟨"2", "08:13", "08:53", 40⟩ = true ∧
      getCurrentPeriod SCHEDULES (tickAfterFirst 0) "regular_schedule" "08:13" ≠ "Period 2" := by
  decide

/-- Claim C4 fails on the code: at 08:09, the end of Period 1 on the regular schedule, a call
whose first clock read falls on millisecond 999 and whose later reads fall on millisecond
000 of the next second returns the transition string "Period 1 → Period 2", and at 14:30,
the end of Extra Help, it returns "After School"; with all reads at one instant the two
calls return "Period 1" and "Extra Help". -/
theorem end_boundary_lost_when_second_wraps :
    getCurrentPeriod SCHEDULES wrapAfterFirst "regular_schedule" "08:09"
        = "Period 1 → Period 2" ∧
      getCurrentPeriod SCHEDULES (frozen 999) "regular_schedule" "08:09" = "Period 1" ∧
      getCurrentPeriod SCHEDULES wrapAfterFirst "regular_schedule" "14:30"
        = "After School" ∧
      getCurrentPeriod SCHEDULES (frozen 999) "regular_schedule" "14:30" = "Extra Help" := by
  decide

/-- Claim C5 fails on the code: at 08:11 and 14:03, inside gaps of the regular schedule, a
call whose first clock read falls on the last millisecond of a day and whose later reads
fall on the next day returns "Before School"; and on the sorted, non-overlapping schedule
A 13:00 to 14:00, B 15:00 to 16:00 the gap query 14:30 returns "After School" when the
second wraps after the first read. With all reads at one instant the three calls return
the transition strings. -/
theorem gap_lost_when_reads_differ :
    getCurrentPeriod SCHEDULES midnightAfterFirst "regular_schedule" "08:11"
        = "Before School" ∧
      getCurrentPeriod SCHEDULES midnightAfterFirst "regular_schedule" "14:03"
        = "Before School" ∧
      getCurrentPeriod afternoonCatalog wrapAfterFirst "afternoon" "14:30"
        = "After School" ∧
      getCurrentPeriod SCHEDULES (frozen 0) "regular_schedule" "08:11"
        = "Period 1 → Period 2" ∧
      getCurrentPeriod SCHEDULES (frozen 0) "regular_schedule" "14:03"
        = "Period 9 → Extra Help" ∧
      getCurrentPeriod afternoonCatalog (frozen 0) "afternoon" "14:30" = "A → B" := by
  decide

/-- Claim C6: on the catalog of the source, a call returns the sentinel
"No schedule defined" exactly when the schedule identifier is not a key of the catalog,
whatever the query string and the clock; the function is total, so no call fails. -/
theorem no_schedule_defined_iff (clock : Nat → Nat) (scheduleType currentTime : String) :
    getCurrentPeriod SCHEDULES clock scheduleType currentTime = "No schedule defined"
      ↔ scheduleType ∉ SCHEDULES.southampton_high_school.map Prod.fst := by
  constructor
  · intro hres hmem
    cases hl : SCHEDULES.southampton_high_school.lookup scheduleType with
    | none =>
      simp only [SCHEDULES, List.map_cons, List.map_nil, List.mem_cons, List.mem_nil_iff,
        or_false] at hmem
      rcases hmem with h | h | h <;> subst h <;> exact absurd hl (by decide)
    | some schedule =>
      have hout : ∀ ps, schedule.periods = some ps →
          "No schedule defined" ∉ resolveOutputs ps := by
        rcases SCHEDULES_lookup scheduleType schedule hl with h | h | h <;>
          · subst h
            intro ps hps
            cases hps
            decide
      cases hp : schedule.periods with
      | none =>
        rcases SCHEDULES_lookup scheduleType schedule hl with h | h | h <;>
          · subst h
            exact absurd hp (by decide)
      | some ps =>
        rw [getCurrentPeriod_eq SCHEDULES clock _ _ schedule ps hl hp] at hres
        exact hout ps hp (hres ▸ resolvePeriods_mem clock ps currentTime)
  · intro hmem
    have hl : SCHEDULES.southampton_high_school.lookup scheduleType = none := by
      simp only [SCHEDULES, List.map_cons, List.map_nil, List.mem_cons, List.mem_nil_iff,
        or_false, not_or] at hmem
      obtain ⟨h1, h2, h3⟩ := hmem
      simp only [SCHEDULES, List.lookup]
      have e1 : (scheduleType == "regular_schedule") = false := by simpa using h1
      have e2 : (scheduleType == "two_hour_delay") = false := by simpa using h2
      have e3 : (scheduleType == "homeroom_schedule") = false := by simpa using h3
      simp only [e1, e2, e3]
    simp only [getCurrentPeriod, hl]

/-- Claim C7 fails on the code: the same arguments give different strings according to the
instants of the clock reads. At 08:13 on the regular schedule a call whose reads all fall in
one millisecond returns "Period 2"; a call during which the clock ticks by one millisecond
after the first read returns "Period 1 → Period 2". -/
theorem clock_reads_change_result :
    getCurrentPeriod SCHEDULES (frozen 0) "regular_schedule" "08:13" = "Period 2" ∧
      getCurrentPeriod SCHEDULES (tickAfterFirst 0) "regular_schedule" "08:13"
        = "Period 1 → Period 2" ∧
      getCurrentPeriod SCHEDULES (frozen 0) "regular_schedule" "07:20"
        = "Period 1 starts at 07:25" ∧
      getCurrentPeriod SCHEDULES (tickAfterFirst 0) "regular_schedule" "07:20"
        = "Before School" := by
  decide

/-- Claim C8, as stated, fails: Period 1 of the regular schedule runs from 07:25 to 08:09,
44 minutes, and records 40. -/
theorem minutes_counterexample :
    ∃ p ∈ regular_schedule.periods.getD [],
      p.name = "1" ∧ p.minutes = 40 ∧ minuteOfDay p.end_ - minuteOfDay p.start = 44 ∧
        p.minutes ≠ minuteOfDay p.end_ - minuteOfDay p.start := by
  decide

/-- Claim C8, amended: in every schedule of the catalog, an interval not named "1" records
as `minutes` its end minus its start, and the interval named "1" records four minutes less
than its end minus its start. -/
theorem minutes_eq_end_sub_start (scheduleType : String) (schedule : Schedule)
    (periods : List Period) (p : Period)
    (hlookup : SCHEDULES.southampton_high_school.lookup scheduleType = some schedule)
    (hperiods : schedule.periods = some periods) (hp : p ∈ periods) :
    (p.name ≠ "1" → minuteOfDay p.start + p.minutes = minuteOfDay p.end_) ∧
      (p.name = "1" → minuteOfDay p.start + p.minutes + 4 = minuteOfDay p.end_) := by
  rcases SCHEDULES_lookup scheduleType schedule hlookup with h | h | h <;>
    · subst h
      cases hperiods
      revert p
      decide

theorem minutes_eq_end_sub_start_witness :
    minuteOfDay "08:13" + 40 = minuteOfDay "08:53" :=
  (minutes_eq_end_sub_start "regular_schedule" regular_schedule _ ⟨"2", "08:13", "08:53", 40⟩
    (by decide) (by rfl) (by decide)).1 (by decide)

/-- Claim C9 fails on the code: at 07:44 on the homeroom schedule a call during which the
clock ticks by one millisecond after the read of the Period 1 check (the fourth read)
returns "Homeroom → Period 1", a transition involving Homeroom; with all reads at one
instant the call returns "Period 1". -/
theorem homeroom_transition_reported :
    isHHMM "07:44" = true ∧
      getCurrentPeriod SCHEDULES (tickAfterRead 3) "homeroom_schedule" "07:44"
        = "Homeroom" ++ " → " ++ "Period 1" ∧
      getCurrentPeriod SCHEDULES (frozen 0) "homeroom_schedule" "07:44" = "Period 1" := by
  decide

/-- Claim C10 fails on the code: at 08:13 on the regular schedule, whose last interval
ends at 14:30, a call during which the clock ticks by one millisecond before the start of
Period 2 is read (the eleventh read) returns "Not in session"; with all reads at one
instant the call returns "Period 2". -/
theorem not_in_session_reported_on_catalog :
    isHHMM "08:13" = true ∧ minuteOfDay "08:13" ≤ minuteOfDay "14:30" ∧
      getCurrentPeriod SCHEDULES (tickAfterRead 9) "regular_schedule" "08:13"
        = "Not in session" ∧
      getCurrentPeriod SCHEDULES (frozen 0) "regular_schedule" "08:13" = "Period 2" := by
  decide

end ShSched
